import Mathlib

/-!
Shallow embedding of the PhoneAgent voice-intake service (`app/main.py`).

The service keeps a process-wide table `conversation_state` mapping a Twilio
call identifier to a per-call session dictionary, asks a fixed list of intake
questions, records transcribed answers, and renders TwiML responses.  Python
dictionaries are modelled as insertion-ordered association lists, timestamps
as an abstract `Nat` clock passed into each operation, and the two outbound
HTTP collaborators (ElevenLabs TTS, the HTTP client) as explicit oracles.
-/

set_option maxHeartbeats 1000000

namespace PhoneAgent

/-- Lookup in a Python-style dict modelled as an insertion-ordered association
list (`d.get(k)` / `d[k]`). -/
def dget {α : Type} (d : List (String × α)) (k : String) : Option α :=
  (d.find? (fun p => decide (p.1 = k))).map (fun p => p.2)

/-- Python dict assignment `d[k] = v`: overwrite in place when the key exists,
append at the end otherwise (Python dicts preserve insertion order). -/
def dset {α : Type} (d : List (String × α)) (k : String) (v : α) : List (String × α) :=
  if (d.find? (fun p => decide (p.1 = k))).isSome then
    d.map (fun p => if p.1 = k then (k, v) else p)
  else d ++ [(k, v)]

/-- One entry of the static `QUESTIONS` list: a key and a prompt template. -/
structure Question where
  key : String
  prompt : String
deriving DecidableEq, Repr

/-- The fixed intake questionnaire, `QUESTIONS` in `app/main.py`. -/
def QUESTIONS : List Question :=
  [ ⟨"name", "Hi Mr Beazely, this is yosefina. I love Thailand and wanna learn how to love you. Whats your first name"⟩,
    ⟨"date_of_birth", "Thank you \x7bname\x7d! What\x27s your date of birth?"⟩,
    ⟨"phone", "Great! What\x27s your phone number?"⟩,
    ⟨"email", "And what\x27s your email address?"⟩,
    ⟨"reason", "Finally, what\x27s the reason for your call today?"⟩ ]

/-- One per-call session dictionary stored in `conversation_state`.  The
Python dict starts without an `updated_at` key, hence the `Option`. -/
structure Session where
  current_question : Nat
  responses : List (String × String)
  completed : Bool
  created_at : Nat
  updated_at : Option Nat
deriving DecidableEq, Repr

/-- The process-wide `conversation_state` table, keyed by call SID. -/
abbrev ConvTable : Type := List (String × Session)

/-- The fresh session dict built by `get_conversation_state` for an unseen
call SID. -/
def freshSession (now : Nat) : Session :=
  { current_question := 0, responses := [], completed := false,
    created_at := now, updated_at := none }

/-- `get_conversation_state(call_sid)`: return the existing session, or insert
and return a fresh one.  The updated table is returned alongside the session
since the embedding is state-passing. -/
def get_conversation_state (t : ConvTable) (call_sid : String) (now : Nat) :
    ConvTable × Session :=
  match dget t call_sid with
  | some s => (t, s)
  | none => (dset t call_sid (freshSession now), freshSession now)

/-- `save_response(call_sid, question_key, response)`: store the answer,
advance the index, set `completed` when the index reaches the question count,
stamp `updated_at`. -/
def save_response (t : ConvTable) (call_sid question_key response : String)
    (now : Nat) : ConvTable :=
  let r := get_conversation_state t call_sid now
  let state := r.2
  let state := { state with
    responses := dset state.responses question_key response,
    current_question := state.current_question + 1 }
  let state :=
    if QUESTIONS.length ≤ state.current_question then
      { state with completed := true }
    else state
  let state := { state with updated_at := some now }
  dset r.1 call_sid state

/-- Python's `sub in s` substring test, on character lists. -/
def listContains (pat : List Char) : List Char → Bool
  | [] => pat.isEmpty
  | c :: rest => pat.isPrefixOf (c :: rest) || listContains pat rest

/-- Python's `sub in s` substring test on strings. -/
def strContains (s pat : String) : Bool :=
  listContains pat.data s.data

/-- Fueled worker for left-to-right non-overlapping replacement. -/
def replaceAux (pat rep : List Char) : Nat → List Char → List Char
  | _, [] => []
  | 0, s => s
  | fuel + 1, c :: rest =>
    if pat.isPrefixOf (c :: rest) && !pat.isEmpty then
      rep ++ replaceAux pat rep fuel ((c :: rest).drop pat.length)
    else
      c :: replaceAux pat rep fuel rest

/-- Python's `s.replace(pat, rep)`: leftmost non-overlapping replacement. -/
def strReplace (s pat rep : String) : String :=
  ⟨replaceAux pat.data rep.data s.data.length s.data⟩

/-- Worker for Python's `str.title()`: a letter is uppercased when the
previous character is not a letter, lowercased otherwise. -/
def titleAux : Bool → List Char → List Char
  | _, [] => []
  | prevAlpha, c :: rest =>
    (if prevAlpha then c.toLower else c.toUpper) :: titleAux c.isAlpha rest

/-- Python's `s.title()`. -/
def pyTitle (s : String) : String :=
  ⟨titleAux false s.data⟩

/-- Python's `sep.join(parts)`. -/
def joinSep (sep : String) : List String → String
  | [] => ""
  | [a] => a
  | a :: b :: rest => a ++ sep ++ joinSep sep (b :: rest)

/-- Body of `get_next_question` once the session has been fetched: either the
completed-summary branch, the pending-prompt branch with `\x7bname\x7d`
interpolation, or the out-of-range fallback line. -/
def get_next_question_pure (state : Session) : String × Bool :=
  if state.completed then
    let summary_parts := QUESTIONS.map (fun question =>
      let value := (dget state.responses question.key).getD "N/A"
      let readable_key := pyTitle (strReplace question.key "_" " ")
      readable_key ++ ": " ++ value)
    ("Perfect! I have all your information: " ++ joinSep ", " summary_parts ++
       ". Thank you!", true)
  else if h : state.current_question < QUESTIONS.length then
    let question := QUESTIONS.get ⟨state.current_question, h⟩
    let prompt := question.prompt
    let prompt :=
      if strContains prompt "\x7bname\x7d" then
        match dget state.responses "name" with
        | some v => strReplace prompt "\x7bname\x7d" v
        | none => prompt
      else prompt
    (prompt, false)
  else
    ("Thank you for calling!", true)

/-- `get_next_question(call_sid)`: fetch (lazily creating) the session, then
compute the next prompt or summary.  Returns the possibly-extended table. -/
def get_next_question (t : ConvTable) (call_sid : String) (now : Nat) :
    ConvTable × String × Bool :=
  let r := get_conversation_state t call_sid now
  let q := get_next_question_pure r.2
  (r.1, q.1, q.2)

/-- The environment-derived `Settings` object (`pydantic` `BaseSettings`).
Optional credentials model unset environment variables. -/
structure Settings where
  twilio_account_sid : Option String
  twilio_auth_token : Option String
  twilio_voice_webhook_secret : String
  elevenlabs_api_key : Option String
  openai_api_key : Option String
  base_url : String
  max_turns : Int
deriving DecidableEq, Repr

/-- Form payload of the call-initiated webhook (`/voice/incoming`): only the
`CallSid` field is read. -/
structure IncomingForm where
  CallSid : Option String
deriving DecidableEq, Repr

/-- Form payload of the speech-captured webhook (`/voice/handle_gather`). -/
structure GatherForm where
  SpeechResult : Option String
  TranscriptionText : Option String
  CallSid : Option String
deriving DecidableEq, Repr

/-- Python `a or b` on an optional form field against a string default:
`None` and the empty string are falsy. -/
def pyStrOr (a : Option String) (b : String) : String :=
  match a with
  | some s => if s = "" then b else s
  | none => b

/-- The utterance extraction of `/voice/handle_gather`:
`form.get("SpeechResult") or form.get("TranscriptionText") or ""`. -/
def extract_utterance (f : GatherForm) : String :=
  pyStrOr f.SpeechResult (pyStrOr f.TranscriptionText "")

/-- One TwiML verb of the rendered `VoiceResponse`: `play`, `say`, or a
`Gather` (speech capture) with its action URL and timeout. -/
inductive Verb where
  | play : String → Verb
  | say : String → Verb
  | gatherSpeech : String → Nat → Verb
deriving DecidableEq, Repr

/-- Observable outcome of one webhook invocation: HTTP status, rendered TwiML
verbs, resulting session table, and the texts sent to `synthesize_tts`. -/
structure HandlerResult where
  status : Nat
  verbs : List Verb
  table : ConvTable
  synthCalls : List String
deriving DecidableEq, Repr

/-- A TTS collaborator as seen by the handlers: the filename of the audio file
produced for a text, or `none` when synthesis is unavailable. -/
def TtsOracle : Type := String → Option String

/-- Play the synthesized audio when available, else fall back to Twilio's
built-in voice (`vr.play` / `vr.say`). -/
def playOrSay (stg : Settings) (tts : TtsOracle) (text : String) : Verb :=
  match tts text with
  | some name => Verb.play (stg.base_url ++ "/media/" ++ name)
  | none => Verb.say text

/-- Handler of the call-initiated webhook `POST /voice/incoming`. -/
def voice_incoming (stg : Settings) (tts : TtsOracle) (secret : String)
    (form : IncomingForm) (t : ConvTable) (now : Nat) : HandlerResult :=
  if secret ≠ stg.twilio_voice_webhook_secret then
    { status := 403, verbs := [], table := t, synthCalls := [] }
  else
    let call_sid := form.CallSid.getD "unknown"
    let r := get_next_question t call_sid now
    let first_question := r.2.1
    let gather_url := stg.base_url ++ "/voice/handle_gather?secret=" ++ secret
    { status := 200,
      verbs :=
        [ playOrSay stg tts first_question,
          Verb.gatherSpeech gather_url 15,
          Verb.say "I\x27m having trouble hearing you. Please try again or call back later." ],
      table := r.1,
      synthCalls := [first_question] }

/-- Handler of the speech-captured webhook `POST /voice/handle_gather`. -/
def voice_handle_gather (stg : Settings) (tts : TtsOracle) (secret : String)
    (form : GatherForm) (t : ConvTable) (now : Nat) : HandlerResult :=
  if secret ≠ stg.twilio_voice_webhook_secret then
    { status := 403, verbs := [], table := t, synthCalls := [] }
  else
    let user_utterance := extract_utterance form
    let call_sid := form.CallSid.getD "unknown"
    let r1 := get_conversation_state t call_sid now
    let current_question_idx := r1.2.current_question
    let t2 :=
      if h : current_question_idx < QUESTIONS.length then
        save_response r1.1 call_sid (QUESTIONS.get ⟨current_question_idx, h⟩).key
          user_utterance now
      else r1.1
    let r3 := get_next_question t2 call_sid now
    let next_prompt := r3.2.1
    let is_complete := r3.2.2
    let gather_url := stg.base_url ++ "/voice/handle_gather?secret=" ++ secret
    if is_complete then
      { status := 200,
        verbs :=
          [ playOrSay stg tts next_prompt,
            Verb.say "Thank you for calling. Have a great day!" ],
        table := r3.1,
        synthCalls := [next_prompt] }
    else
      let r4 := get_next_question r3.1 call_sid now
      let current_question := r4.2.1
      { status := 200,
        verbs :=
          [ playOrSay stg tts next_prompt,
            Verb.gatherSpeech gather_url 15,
            Verb.say "I didn\x27t catch that. Let me ask again.",
            playOrSay stg tts current_question,
            Verb.gatherSpeech gather_url 10,
            Verb.say "Thank you for calling. Have a great day!" ],
        table := r4.1,
        synthCalls := [next_prompt, current_question] }

/-- Handler of the fallback webhook `POST /voice/fallback`. -/
def voice_fallback (stg : Settings) (secret : String) (t : ConvTable) :
    HandlerResult :=
  if secret ≠ stg.twilio_voice_webhook_secret then
    { status := 403, verbs := [], table := t, synthCalls := [] }
  else
    { status := 200,
      verbs := [Verb.say "Sorry, the service is temporarily unavailable. Please try again later."],
      table := t,
      synthCalls := [] }

/-- Outcome of the one outbound HTTP POST inside `synthesize_tts`: an
exception / non-2xx status (collapsed by `raise_for_status`), or a 2xx
response carrying the audio bytes. -/
inductive HttpOutcome where
  | failure : HttpOutcome
  | success : List Nat → HttpOutcome
deriving DecidableEq, Repr

/-- Environment of one `synthesize_tts` call: configured credential, the hex
string produced by `uuid.uuid4().hex`, and the HTTP outcome. -/
structure TtsEnv where
  elevenlabs_api_key : Option String
  uuid_hex : String
  http : HttpOutcome
deriving DecidableEq, Repr

/-- Observable outcome of `synthesize_tts`: the returned filename (`none`
models returning `None`), whether the outbound POST was attempted, and the
files written into the media directory. -/
structure TtsOutcome where
  result : Option String
  attempted : Bool
  writes : List (String × List Nat)
deriving DecidableEq, Repr

/-- `synthesize_tts(text)`: empty text or a missing/placeholder credential
short-circuits to `None` before any outbound call; an HTTP failure is caught
and collapses to `None`; success writes the audio under a fresh
`tts_<uuid>.mp3` name and returns that path. -/
def synthesize_tts (text : String) (env : TtsEnv) : TtsOutcome :=
  if text = "" then { result := none, attempted := false, writes := [] }
  else
    match env.elevenlabs_api_key with
    | none => { result := none, attempted := false, writes := [] }
    | some api_key =>
      if api_key = "" ∨ api_key = "your_elevenlabs_api_key_here" then
        { result := none, attempted := false, writes := [] }
      else
        let filename := "tts_" ++ env.uuid_hex ++ ".mp3"
        match env.http with
        | HttpOutcome.failure => { result := none, attempted := true, writes := [] }
        | HttpOutcome.success content =>
          { result := some filename, attempted := true,
            writes := [(filename, content)] }

/-- One public operation on the session table: the three state-machine
functions called directly, or one of the three webhook handlers. -/
inductive Op where
  | getOrCreate : String → Nat → Op
  | recordAnswer : String → String → String → Nat → Op
  | nextStep : String → Nat → Op
  | incomingEv : String → IncomingForm → Nat → Op
  | gatherEv : String → GatherForm → Nat → Op
  | fallbackEv : String → Op
deriving DecidableEq, Repr

/-- Table effect of one public operation. -/
def applyOp (stg : Settings) (tts : TtsOracle) (t : ConvTable) : Op → ConvTable
  | Op.getOrCreate c now => (get_conversation_state t c now).1
  | Op.recordAnswer c k txt now => save_response t c k txt now
  | Op.nextStep c now => (get_next_question t c now).1
  | Op.incomingEv secret f now => (voice_incoming stg tts secret f t now).table
  | Op.gatherEv secret f now => (voice_handle_gather stg tts secret f t now).table
  | Op.fallbackEv secret => (voice_fallback stg secret t).table

/-- Table effect of a sequence of public operations, left to right. -/
def applyOps (stg : Settings) (tts : TtsOracle) (t : ConvTable) : List Op → ConvTable
  | [] => t
  | op :: rest => applyOps stg tts (applyOp stg tts t op) rest

/-- Operations in which `save_response` is only reached through the webhook
handlers (the raw `recordAnswer` with an arbitrary key is excluded). -/
def Op.viaHandlers : Op → Bool
  | Op.recordAnswer _ _ _ _ => false
  | _ => true

/-- Iterated direct `save_response` calls on one call SID. -/
def recordMany (c : String) (pairs : List (String × String)) (now : Nat)
    (t : ConvTable) : ConvTable :=
  pairs.foldl (fun acc kv => save_response acc c kv.1 kv.2 now) t

/-- The session produced by one `save_response` step from a fetched session:
used to state the characterisation lemma of `save_response`. -/
def bumpSession (s : Session) (question_key response : String) (now : Nat) : Session :=
  { current_question := s.current_question + 1,
    responses := dset s.responses question_key response,
    completed := if QUESTIONS.length ≤ s.current_question + 1 then true else s.completed,
    created_at := s.created_at,
    updated_at := some now }

/-- Net table effect of an authenticated speech-captured webhook on call SID
`c0` with utterance `utt`: lazily create the session, then, when the pending
index is in range, record the utterance under the pending question's key. -/
def gatherCore (c0 utt : String) (t : ConvTable) (now : Nat) : ConvTable :=
  let r1 := get_conversation_state t c0 now
  if h : r1.2.current_question < QUESTIONS.length then
    save_response r1.1 c0 (QUESTIONS.get ⟨r1.2.current_question, h⟩).key utt now
  else r1.1

/-- Net table effect of an authenticated speech-captured webhook request. -/
def gatherNet (f : GatherForm) (t : ConvTable) (now : Nat) : ConvTable :=
  gatherCore (f.CallSid.getD "unknown") (extract_utterance f) t now

/-- Weak monotone evolution between two snapshots of one session: the pending
index never decreases and the completion flag is never reset. -/
def monoIdx (s s2 : Session) : Prop :=
  s.current_question ≤ s2.current_question ∧
  (s.completed = true → s2.completed = true)

/-- Monotone evolution including answer stability: every recorded answer keeps
its value. -/
def monoSess (s s2 : Session) : Prop :=
  monoIdx s s2 ∧ ∀ k v, dget s.responses k = some v → dget s2.responses k = some v

/-- The completion flag tracks whether the pending index reached the question
count. -/
def sessionInv1 (s : Session) : Prop :=
  s.completed = decide (QUESTIONS.length ≤ s.current_question)

/-- Reachability invariant of handler-driven sessions: the completion flag
tracks the index, and the recorded keys are exactly the question keys below
the pending index, in order. -/
def sessionInv (s : Session) : Prop :=
  sessionInv1 s ∧
  s.responses.map Prod.fst = (QUESTIONS.take s.current_question).map Question.key

/-- Every session in the table satisfies the reachability invariant. -/
def tableInv (t : ConvTable) : Prop :=
  ∀ c s, dget t c = some s → sessionInv s

/-- Modelled from the spec claim as stated: the utterance is the
`SpeechResult` field whenever that field is present in the form (regardless
of its value), else the `TranscriptionText` field when present, else `""`. -/
def claimedUtterance (f : GatherForm) : String :=
  match f.SpeechResult with
  | some s => s
  | none =>
    match f.TranscriptionText with
    | some s => s
    | none => ""

/-- The amended preference order: `SpeechResult` when present and non-empty,
else `TranscriptionText` when present and non-empty, else the empty string. -/
def preferredUtterance (f : GatherForm) : String :=
  if f.SpeechResult.getD "" ≠ "" then f.SpeechResult.getD ""
  else if f.TranscriptionText.getD "" ≠ "" then f.TranscriptionText.getD ""
  else ""

/-! ### Association-list lemmas -/

theorem dget_cons {α : Type} (p : String × α) (rest : List (String × α)) (k : String) :
    dget (p :: rest) k = if p.1 = k then some p.2 else dget rest k := by
  by_cases hp : p.1 = k <;> simp [dget, List.find?, hp]

theorem dset_cons_ne {α : Type} (p : String × α) (rest : List (String × α))
    (k : String) (v : α) (hp : p.1 ≠ k) :
    dset (p :: rest) k v = p :: dset rest k v := by
  have hfind : ((p :: rest).find? fun q => decide (q.1 = k)) =
      rest.find? fun q => decide (q.1 = k) := by
    simp [List.find?, hp]
  by_cases hs : (rest.find? fun q => decide (q.1 = k)).isSome
  · simp [dset, hfind, hs, List.map_cons, hp]
  · simp [dset, hfind, hs, hp]

theorem dset_cons_eq {α : Type} (p : String × α) (rest : List (String × α))
    (k : String) (v : α) (hp : p.1 = k) :
    dset (p :: rest) k v =
      (k, v) :: rest.map (fun q => if q.1 = k then (k, v) else q) := by
  have hfind : ((p :: rest).find? fun q => decide (q.1 = k)) = some p := by
    simp [List.find?, hp]
  simp [dset, hfind, hp]

theorem dget_dset_self {α : Type} (d : List (String × α)) (k : String) (v : α) :
    dget (dset d k v) k = some v := by
  induction d with
  | nil => simp [dget, dset, List.find?]
  | cons p rest ih =>
    by_cases hp : p.1 = k
    · rw [dset_cons_eq p rest k v hp, dget_cons]
      simp
    · rw [dset_cons_ne p rest k v hp, dget_cons, if_neg hp]
      exact ih

theorem dget_map_overwrite_ne {α : Type} (d : List (String × α)) (k : String)
    (v : α) (q : String) (h : q ≠ k) :
    dget (d.map (fun p => if p.1 = k then (k, v) else p)) q = dget d q := by
  induction d with
  | nil => rfl
  | cons p rest ih =>
    rw [List.map_cons, dget_cons, dget_cons]
    by_cases hp : p.1 = k
    · rw [if_pos hp]
      rw [if_neg (show ¬ ((k, v) : String × α).1 = q from Ne.symm h)]
      rw [if_neg (show ¬ p.1 = q by rw [hp]; exact Ne.symm h)]
      exact ih
    · rw [if_neg hp]
      by_cases hpq : p.1 = q
      · rw [if_pos hpq, if_pos hpq]
      · rw [if_neg hpq, if_neg hpq]
        exact ih

theorem dget_append_single_ne {α : Type} (d : List (String × α)) (k : String)
    (v : α) (q : String) (h : q ≠ k) :
    dget (d ++ [(k, v)]) q = dget d q := by
  induction d with
  | nil => simp [dget, List.find?, Ne.symm h]
  | cons p rest ih =>
    rw [List.cons_append, dget_cons, dget_cons]
    by_cases hp : p.1 = q
    · rw [if_pos hp, if_pos hp]
    · rw [if_neg hp, if_neg hp]
      exact ih

theorem dget_dset_ne {α : Type} (d : List (String × α)) (k : String) (v : α)
    (q : String) (h : q ≠ k) :
    dget (dset d k v) q = dget d q := by
  unfold dset
  split
  · exact dget_map_overwrite_ne d k v q h
  · exact dget_append_single_ne d k v q h

theorem dget_none_iff {α : Type} (d : List (String × α)) (k : String) :
    dget d k = none ↔ k ∉ d.map Prod.fst := by
  induction d with
  | nil => simp [dget]
  | cons p rest ih =>
    rw [dget_cons]
    by_cases hp : p.1 = k
    · simp [hp]
    · simp [hp, ih, Ne.symm hp]

theorem keys_dset_of_none {α : Type} (d : List (String × α)) (k : String) (v : α)
    (h : dget d k = none) :
    (dset d k v).map Prod.fst = d.map Prod.fst ++ [k] := by
  have hf : (d.find? fun p => decide (p.1 = k)) = none := by
    cases hfind : d.find? (fun p => decide (p.1 = k)) with
    | none => rfl
    | some p => simp [dget, hfind] at h
  simp [dset, hf]

theorem dget_dset_preserve {α : Type} (d : List (String × α)) (k : String) (v : α)
    (q : String) (w : α) (hfresh : dget d k = none) (h : dget d q = some w) :
    dget (dset d k v) q = some w := by
  rcases eq_or_ne q k with rfl | hne
  · rw [h] at hfresh
    cases hfresh
  · rw [dget_dset_ne d k v q hne]
    exact h

/-! ### Characterisation of the state-machine operations -/

theorem gcs_of_some (t : ConvTable) (c : String) (now : Nat) (s : Session)
    (h : dget t c = some s) : get_conversation_state t c now = (t, s) := by
  simp [get_conversation_state, h]

theorem gcs_of_none (t : ConvTable) (c : String) (now : Nat)
    (h : dget t c = none) :
    get_conversation_state t c now = (dset t c (freshSession now), freshSession now) := by
  simp [get_conversation_state, h]

theorem dget_gcs_fst (t : ConvTable) (c : String) (now : Nat) (q : String) :
    dget (get_conversation_state t c now).1 q =
      if q = c then some (get_conversation_state t c now).2 else dget t q := by
  cases h : dget t c with
  | some s =>
    rw [gcs_of_some t c now s h]
    by_cases hq : q = c
    · subst hq
      rw [if_pos rfl, h]
    · rw [if_neg hq]
  | none =>
    rw [gcs_of_none t c now h]
    by_cases hq : q = c
    · subst hq
      rw [if_pos rfl]
      exact dget_dset_self t q (freshSession now)
    · rw [if_neg hq]
      exact dget_dset_ne t c (freshSession now) q hq

theorem dget_gcs_self (t : ConvTable) (c : String) (now : Nat) :
    dget (get_conversation_state t c now).1 c =
      some (get_conversation_state t c now).2 := by
  rw [dget_gcs_fst, if_pos rfl]

theorem save_response_eq (t : ConvTable) (c k txt : String) (now : Nat) :
    save_response t c k txt now =
      dset (get_conversation_state t c now).1 c
        (bumpSession (get_conversation_state t c now).2 k txt now) := by
  unfold save_response bumpSession
  by_cases h : QUESTIONS.length ≤ (get_conversation_state t c now).2.current_question + 1 <;>
    simp [h]

theorem dget_save_response (t : ConvTable) (c k txt : String) (now : Nat) (q : String) :
    dget (save_response t c k txt now) q =
      if q = c then some (bumpSession (get_conversation_state t c now).2 k txt now)
      else dget t q := by
  rw [save_response_eq]
  by_cases hq : q = c
  · subst hq
    rw [if_pos rfl]
    exact dget_dset_self _ _ _
  · rw [if_neg hq, dget_dset_ne _ _ _ _ hq, dget_gcs_fst, if_neg hq]

theorem get_next_question_fst (t : ConvTable) (c : String) (now : Nat) :
    (get_next_question t c now).1 = (get_conversation_state t c now).1 := rfl

theorem get_next_question_snd (t : ConvTable) (c : String) (now : Nat) :
    (get_next_question t c now).2 =
      get_next_question_pure (get_conversation_state t c now).2 := rfl

theorem get_next_question_fst_of_some (t : ConvTable) (c : String) (now : Nat)
    (s : Session) (h : dget t c = some s) :
    (get_next_question t c now).1 = t := by
  rw [get_next_question_fst, gcs_of_some t c now s h]

/-! ### Handler characterisation -/

theorem gatherNet_exists (f : GatherForm) (t : ConvTable) (now : Nat) :
    ∃ s, dget (gatherNet f t now) (f.CallSid.getD "unknown") = some s := by
  simp only [gatherNet, gatherCore]
  split
  · rw [dget_save_response, if_pos rfl]
    exact ⟨_, rfl⟩
  · exact ⟨_, dget_gcs_self t (f.CallSid.getD "unknown") now⟩

theorem gather_table_eq (stg : Settings) (tts : TtsOracle) (secret : String)
    (f : GatherForm) (t : ConvTable) (now : Nat)
    (hs : secret = stg.twilio_voice_webhook_secret) :
    (voice_handle_gather stg tts secret f t now).table = gatherNet f t now := by
  have hsec : ¬ secret ≠ stg.twilio_voice_webhook_secret := by simp [hs]
  obtain ⟨s2, hs2⟩ := gatherNet_exists f t now
  have h3 : (get_next_question (gatherNet f t now) (f.CallSid.getD "unknown") now).1
      = gatherNet f t now := get_next_question_fst_of_some _ _ _ _ hs2
  have h4 : (get_next_question
      (get_next_question (gatherNet f t now) (f.CallSid.getD "unknown") now).1
      (f.CallSid.getD "unknown") now).1 = gatherNet f t now := by
    rw [h3, h3]
  simp only [voice_handle_gather, if_neg hsec]
  split
  · rename_i hlt
    have hnet : gatherNet f t now =
        save_response (get_conversation_state t (f.CallSid.getD "unknown") now).1
          (f.CallSid.getD "unknown")
          (QUESTIONS.get
            ⟨(get_conversation_state t (f.CallSid.getD "unknown") now).2.current_question, hlt⟩).key
          (extract_utterance f) now := by
      simp only [gatherNet, gatherCore]
      rw [dif_pos hlt]
    rw [hnet] at h3 h4
    rw [hnet]
    split
    · exact h3
    · exact h4
  · rename_i hge
    have hnet : gatherNet f t now =
        (get_conversation_state t (f.CallSid.getD "unknown") now).1 := by
      simp only [gatherNet, gatherCore]
      rw [dif_neg hge]
    rw [hnet] at h3 h4
    rw [hnet]
    split
    · exact h3
    · exact h4

theorem incoming_table_eq (stg : Settings) (tts : TtsOracle) (secret : String)
    (f : IncomingForm) (t : ConvTable) (now : Nat)
    (hs : secret = stg.twilio_voice_webhook_secret) :
    (voice_incoming stg tts secret f t now).table =
      (get_conversation_state t (f.CallSid.getD "unknown") now).1 := by
  have hsec : ¬ secret ≠ stg.twilio_voice_webhook_secret := by simp [hs]
  simp only [voice_incoming, if_neg hsec]
  exact get_next_question_fst t (f.CallSid.getD "unknown") now

theorem incoming_403 (stg : Settings) (tts : TtsOracle) (secret : String)
    (f : IncomingForm) (t : ConvTable) (now : Nat)
    (h : secret ≠ stg.twilio_voice_webhook_secret) :
    voice_incoming stg tts secret f t now =
      { status := 403, verbs := [], table := t, synthCalls := [] } := by
  simp [voice_incoming, h]

theorem gather_403 (stg : Settings) (tts : TtsOracle) (secret : String)
    (f : GatherForm) (t : ConvTable) (now : Nat)
    (h : secret ≠ stg.twilio_voice_webhook_secret) :
    voice_handle_gather stg tts secret f t now =
      { status := 403, verbs := [], table := t, synthCalls := [] } := by
  simp [voice_handle_gather, h]

theorem fallback_403 (stg : Settings) (secret : String) (t : ConvTable)
    (h : secret ≠ stg.twilio_voice_webhook_secret) :
    voice_fallback stg secret t =
      { status := 403, verbs := [], table := t, synthCalls := [] } := by
  simp [voice_fallback, h]

theorem fallback_table (stg : Settings) (secret : String) (t : ConvTable) :
    (voice_fallback stg secret t).table = t := by
  unfold voice_fallback
  split <;> rfl

/-! ### Monotone evolution of sessions under the public operations -/

theorem monoIdx_refl (s : Session) : monoIdx s s :=
  ⟨Nat.le_refl _, fun h => h⟩

theorem monoIdx_trans {a b c : Session} (h1 : monoIdx a b) (h2 : monoIdx b c) :
    monoIdx a c :=
  ⟨Nat.le_trans h1.1 h2.1, fun h => h2.2 (h1.2 h)⟩

theorem monoSess_refl (s : Session) : monoSess s s :=
  ⟨monoIdx_refl s, fun _ _ h => h⟩

theorem monoSess_trans {a b c : Session} (h1 : monoSess a b) (h2 : monoSess b c) :
    monoSess a c :=
  ⟨monoIdx_trans h1.1 h2.1, fun k v h => h2.2 k v (h1.2 k v h)⟩

theorem bump_monoIdx (s : Session) (k txt : String) (now : Nat) :
    monoIdx s (bumpSession s k txt now) := by
  refine ⟨Nat.le_succ _, fun hc => ?_⟩
  simp only [bumpSession]
  split
  · rfl
  · exact hc

theorem step_gcs_table (t : ConvTable) (c0 : String) (now : Nat) (c : String)
    (s : Session) (h : dget t c = some s) :
    dget (get_conversation_state t c0 now).1 c = some s := by
  rw [dget_gcs_fst]
  by_cases hc : c = c0
  · subst hc
    rw [if_pos rfl, gcs_of_some t c now s h]
  · rw [if_neg hc]
    exact h

theorem gatherCore_mono (c0 utt : String) (t : ConvTable) (now : Nat)
    (c : String) (s : Session) (h : dget t c = some s) :
    ∃ s2, dget (gatherCore c0 utt t now) c = some s2 ∧ monoIdx s s2 := by
  by_cases hc : c = c0
  · subst hc
    have e1 : get_conversation_state t c now = (t, s) := gcs_of_some t c now s h
    simp only [gatherCore, e1]
    split
    · rw [dget_save_response, if_pos rfl]
      simp only [e1]
      exact ⟨_, rfl, bump_monoIdx s _ _ now⟩
    · exact ⟨s, h, monoIdx_refl s⟩
  · refine ⟨s, ?_, monoIdx_refl s⟩
    simp only [gatherCore]
    split
    · rw [dget_save_response, if_neg hc, dget_gcs_fst, if_neg hc]
      exact h
    · rw [dget_gcs_fst, if_neg hc]
      exact h

theorem gatherNet_mono (f : GatherForm) (t : ConvTable) (now : Nat) (c : String)
    (s : Session) (h : dget t c = some s) :
    ∃ s2, dget (gatherNet f t now) c = some s2 ∧ monoIdx s s2 :=
  gatherCore_mono (f.CallSid.getD "unknown") (extract_utterance f) t now c s h

theorem applyOp_mono (stg : Settings) (tts : TtsOracle) (op : Op) (t : ConvTable)
    (c : String) (s : Session) (h : dget t c = some s) :
    ∃ s2, dget (applyOp stg tts t op) c = some s2 ∧ monoIdx s s2 := by
  cases op with
  | getOrCreate c0 now =>
    exact ⟨s, step_gcs_table t c0 now c s h, monoIdx_refl s⟩
  | nextStep c0 now =>
    refine ⟨s, ?_, monoIdx_refl s⟩
    show dget (get_next_question t c0 now).1 c = some s
    rw [get_next_question_fst]
    exact step_gcs_table t c0 now c s h
  | fallbackEv secret =>
    refine ⟨s, ?_, monoIdx_refl s⟩
    show dget (voice_fallback stg secret t).table c = some s
    rw [fallback_table]
    exact h
  | recordAnswer c0 k txt now =>
    show ∃ s2, dget (save_response t c0 k txt now) c = some s2 ∧ monoIdx s s2
    rw [dget_save_response]
    by_cases hc : c = c0
    · subst hc
      rw [if_pos rfl, gcs_of_some t c now s h]
      exact ⟨_, rfl, bump_monoIdx s k txt now⟩
    · rw [if_neg hc]
      exact ⟨s, h, monoIdx_refl s⟩
  | incomingEv secret f now =>
    show ∃ s2, dget (voice_incoming stg tts secret f t now).table c = some s2 ∧ monoIdx s s2
    by_cases hsec : secret = stg.twilio_voice_webhook_secret
    · rw [incoming_table_eq stg tts secret f t now hsec]
      exact ⟨s, step_gcs_table t _ now c s h, monoIdx_refl s⟩
    · rw [incoming_403 stg tts secret f t now hsec]
      exact ⟨s, h, monoIdx_refl s⟩
  | gatherEv secret f now =>
    show ∃ s2, dget (voice_handle_gather stg tts secret f t now).table c = some s2 ∧ monoIdx s s2
    by_cases hsec : secret = stg.twilio_voice_webhook_secret
    · rw [gather_table_eq stg tts secret f t now hsec]
      exact gatherNet_mono f t now c s h
    · rw [gather_403 stg tts secret f t now hsec]
      exact ⟨s, h, monoIdx_refl s⟩

theorem applyOps_mono (stg : Settings) (tts : TtsOracle) (ops : List Op)
    (t : ConvTable) (c : String) (s : Session) (h : dget t c = some s) :
    ∃ s2, dget (applyOps stg tts t ops) c = some s2 ∧ monoIdx s s2 := by
  induction ops generalizing t s with
  | nil => exact ⟨s, h, monoIdx_refl s⟩
  | cons op rest ih =>
    obtain ⟨s1, h1, m1⟩ := applyOp_mono stg tts op t c s h
    obtain ⟨s2, h2, m2⟩ := ih (applyOp stg tts t op) s1 h1
    exact ⟨s2, h2, monoIdx_trans m1 m2⟩

theorem freshSession_inv (now : Nat) : sessionInv (freshSession now) :=
  ⟨rfl, rfl⟩

theorem gcs_snd_inv (t : ConvTable) (c0 : String) (now : Nat) (hinv : tableInv t) :
    sessionInv (get_conversation_state t c0 now).2 := by
  cases h : dget t c0 with
  | some s0 =>
    rw [gcs_of_some t c0 now s0 h]
    exact hinv c0 s0 h
  | none =>
    rw [gcs_of_none t c0 now h]
    exact freshSession_inv now

theorem gcs_inv (t : ConvTable) (c0 : String) (now : Nat) (hinv : tableInv t) :
    tableInv (get_conversation_state t c0 now).1 := by
  intro c s hs
  rw [dget_gcs_fst] at hs
  by_cases hc : c = c0
  · rw [if_pos hc] at hs
    cases hs
    exact gcs_snd_inv t c0 now hinv
  · rw [if_neg hc] at hs
    exact hinv c s hs

theorem bump_inv1 (s : Session) (k txt : String) (now : Nat) (h : sessionInv1 s) :
    sessionInv1 (bumpSession s k txt now) := by
  unfold sessionInv1 bumpSession at *
  by_cases hle : QUESTIONS.length ≤ s.current_question + 1
  · simp [hle]
  · have hlt : ¬ QUESTIONS.length ≤ s.current_question :=
      fun hx => hle (Nat.le_succ_of_le hx)
    simp [hle, h, hlt]

theorem get_not_mem_take {α : Type} (l : List α) (hnd : l.Nodup) (i : Nat)
    (h : i < l.length) : l.get ⟨i, h⟩ ∉ l.take i := by
  intro hmem
  have hlen : 0 < (l.drop i).length := by
    rw [List.length_drop]
    omega
  have hdrop : l.get ⟨i, h⟩ ∈ l.drop i := by
    have hget : (l.drop i).get ⟨0, hlen⟩ = l.get ⟨i, h⟩ := by
      simp [List.getElem_drop']
    rw [← hget]
    exact List.get_mem _ _ _
  exact (List.disjoint_take_drop hnd (Nat.le_refl i)) hmem hdrop

theorem question_key_fresh (i : Nat) (h : i < QUESTIONS.length) :
    (QUESTIONS.get ⟨i, h⟩).key ∉ (QUESTIONS.take i).map Question.key := by
  have hnd : (QUESTIONS.map Question.key).Nodup := by decide
  have hlen : i < (QUESTIONS.map Question.key).length := by
    rw [List.length_map]
    exact h
  have hget : (QUESTIONS.map Question.key).get ⟨i, hlen⟩ = (QUESTIONS.get ⟨i, h⟩).key := by
    simp
  have hh := get_not_mem_take (QUESTIONS.map Question.key) hnd i hlen
  rw [hget, ← List.map_take] at hh
  exact hh

theorem take_succ_key (i : Nat) (h : i < QUESTIONS.length) :
    (QUESTIONS.take (i + 1)).map Question.key =
      (QUESTIONS.take i).map Question.key ++ [(QUESTIONS.get ⟨i, h⟩).key] := by
  have h5 : i < 5 := h
  interval_cases i <;> rfl

theorem bump_inv (s : Session) (hlt : s.current_question < QUESTIONS.length)
    (txt : String) (now : Nat) (hinv : sessionInv s) :
    sessionInv (bumpSession s (QUESTIONS.get ⟨s.current_question, hlt⟩).key txt now) ∧
    monoSess s (bumpSession s (QUESTIONS.get ⟨s.current_question, hlt⟩).key txt now) := by
  obtain ⟨h1, h2⟩ := hinv
  have hfresh : dget s.responses (QUESTIONS.get ⟨s.current_question, hlt⟩).key = none := by
    rw [dget_none_iff, h2]
    exact question_key_fresh s.current_question hlt
  refine ⟨⟨bump_inv1 s _ txt now h1, ?_⟩,
    bump_monoIdx s _ txt now,
    fun k v hv => dget_dset_preserve _ _ _ _ _ hfresh hv⟩
  show (dset s.responses _ txt).map Prod.fst =
    (QUESTIONS.take (s.current_question + 1)).map Question.key
  rw [keys_dset_of_none _ _ _ hfresh, h2, take_succ_key s.current_question hlt]

theorem gatherCore_strong (c0 utt : String) (t : ConvTable) (now : Nat)
    (hinv : tableInv t) :
    tableInv (gatherCore c0 utt t now) ∧
    ∀ c s, dget t c = some s →
      ∃ s2, dget (gatherCore c0 utt t now) c = some s2 ∧ monoSess s s2 := by
  cases hdc : dget t c0 with
  | some s0 =>
    have e1 : get_conversation_state t c0 now = (t, s0) := gcs_of_some t c0 now s0 hdc
    have hs0inv : sessionInv s0 := hinv c0 s0 hdc
    simp only [gatherCore, e1]
    split
    · rename_i hlt
      obtain ⟨hbinv, hbmono⟩ := bump_inv s0 hlt utt now hs0inv
      constructor
      · intro c s hs
        rw [dget_save_response] at hs
        by_cases hc : c = c0
        · rw [if_pos hc] at hs
          simp only [e1] at hs
          cases hs
          exact hbinv
        · rw [if_neg hc] at hs
          exact hinv c s hs
      · intro c s hcs
        by_cases hc : c = c0
        · subst hc
          rw [hdc] at hcs
          cases hcs
          refine ⟨_, ?_, hbmono⟩
          rw [dget_save_response, if_pos rfl]
          simp only [e1]
        · refine ⟨s, ?_, monoSess_refl s⟩
          rw [dget_save_response, if_neg hc]
          exact hcs
    · exact ⟨hinv, fun c s hcs => ⟨s, hcs, monoSess_refl s⟩⟩
  | none =>
    have e1 : get_conversation_state t c0 now =
        (dset t c0 (freshSession now), freshSession now) := gcs_of_none t c0 now hdc
    have hfr : dget (dset t c0 (freshSession now)) c0 = some (freshSession now) :=
      dget_dset_self t c0 (freshSession now)
    have e2 : get_conversation_state (dset t c0 (freshSession now)) c0 now =
        (dset t c0 (freshSession now), freshSession now) :=
      gcs_of_some _ c0 now _ hfr
    simp only [gatherCore, e1]
    split
    · rename_i hlt
      obtain ⟨hbinv, hbmono⟩ := bump_inv (freshSession now) hlt utt now (freshSession_inv now)
      constructor
      · intro c s hs
        rw [dget_save_response] at hs
        by_cases hc : c = c0
        · rw [if_pos hc] at hs
          simp only [e2] at hs
          cases hs
          exact hbinv
        · rw [if_neg hc, dget_dset_ne t c0 _ c hc] at hs
          exact hinv c s hs
      · intro c s hcs
        by_cases hc : c = c0
        · subst hc
          rw [hdc] at hcs
          cases hcs
        · refine ⟨s, ?_, monoSess_refl s⟩
          rw [dget_save_response, if_neg hc, dget_dset_ne t c0 _ c hc]
          exact hcs
    · rename_i hge
      have h0 : (freshSession now).current_question < QUESTIONS.length := by
        simp [freshSession, QUESTIONS]
      exact absurd h0 hge

theorem applyOp_strong (stg : Settings) (tts : TtsOracle) (op : Op)
    (hop : op.viaHandlers = true) (t : ConvTable) (hinv : tableInv t) :
    tableInv (applyOp stg tts t op) ∧
    ∀ c s, dget t c = some s →
      ∃ s2, dget (applyOp stg tts t op) c = some s2 ∧ monoSess s s2 := by
  cases op with
  | recordAnswer c0 k txt now => cases hop
  | getOrCreate c0 now =>
    exact ⟨gcs_inv t c0 now hinv,
      fun c s h => ⟨s, step_gcs_table t c0 now c s h, monoSess_refl s⟩⟩
  | nextStep c0 now =>
    refine ⟨?_, fun c s h => ⟨s, ?_, monoSess_refl s⟩⟩
    · show tableInv (get_next_question t c0 now).1
      rw [get_next_question_fst]
      exact gcs_inv t c0 now hinv
    · show dget (get_next_question t c0 now).1 c = some s
      rw [get_next_question_fst]
      exact step_gcs_table t c0 now c s h
  | fallbackEv secret =>
    refine ⟨?_, fun c s h => ⟨s, ?_, monoSess_refl s⟩⟩
    · show tableInv (voice_fallback stg secret t).table
      rw [fallback_table]
      exact hinv
    · show dget (voice_fallback stg secret t).table c = some s
      rw [fallback_table]
      exact h
  | incomingEv secret f now =>
    by_cases hsec : secret = stg.twilio_voice_webhook_secret
    · refine ⟨?_, fun c s h => ⟨s, ?_, monoSess_refl s⟩⟩
      · show tableInv (voice_incoming stg tts secret f t now).table
        rw [incoming_table_eq stg tts secret f t now hsec]
        exact gcs_inv t _ now hinv
      · show dget (voice_incoming stg tts secret f t now).table c = some s
        rw [incoming_table_eq stg tts secret f t now hsec]
        exact step_gcs_table t _ now c s h
    · refine ⟨?_, fun c s h => ⟨s, ?_, monoSess_refl s⟩⟩
      · show tableInv (voice_incoming stg tts secret f t now).table
        rw [incoming_403 stg tts secret f t now hsec]
        exact hinv
      · show dget (voice_incoming stg tts secret f t now).table c = some s
        rw [incoming_403 stg tts secret f t now hsec]
        exact h
  | gatherEv secret f now =>
    by_cases hsec : secret = stg.twilio_voice_webhook_secret
    · have hT : (voice_handle_gather stg tts secret f t now).table =
          gatherCore (f.CallSid.getD "unknown") (extract_utterance f) t now :=
        gather_table_eq stg tts secret f t now hsec
      obtain ⟨hi, hm⟩ := gatherCore_strong (f.CallSid.getD "unknown")
        (extract_utterance f) t now hinv
      constructor
      · show tableInv (voice_handle_gather stg tts secret f t now).table
        rw [hT]
        exact hi
      · intro c s h
        obtain ⟨s2, h2, m2⟩ := hm c s h
        refine ⟨s2, ?_, m2⟩
        show dget (voice_handle_gather stg tts secret f t now).table c = some s2
        rw [hT]
        exact h2
    · refine ⟨?_, fun c s h => ⟨s, ?_, monoSess_refl s⟩⟩
      · show tableInv (voice_handle_gather stg tts secret f t now).table
        rw [gather_403 stg tts secret f t now hsec]
        exact hinv
      · show dget (voice_handle_gather stg tts secret f t now).table c = some s
        rw [gather_403 stg tts secret f t now hsec]
        exact h

theorem applyOps_strong (stg : Settings) (tts : TtsOracle) (ops : List Op)
    (hops : ∀ op ∈ ops, op.viaHandlers = true) (t : ConvTable) (hinv : tableInv t) :
    tableInv (applyOps stg tts t ops) ∧
    ∀ c s, dget t c = some s →
      ∃ s2, dget (applyOps stg tts t ops) c = some s2 ∧ monoSess s s2 := by
  induction ops generalizing t with
  | nil => exact ⟨hinv, fun c s h => ⟨s, h, monoSess_refl s⟩⟩
  | cons op rest ih =>
    obtain ⟨hi1, hm1⟩ := applyOp_strong stg tts op (hops op (List.mem_cons_self op rest)) t hinv
    obtain ⟨hi2, hm2⟩ := ih (fun o ho => hops o (List.mem_cons_of_mem op ho)) _ hi1
    refine ⟨hi2, fun c s h => ?_⟩
    obtain ⟨s1, h1, m1⟩ := hm1 c s h
    obtain ⟨s2, h2, m2⟩ := hm2 c s1 h1
    exact ⟨s2, h2, monoSess_trans m1 m2⟩

theorem applyOps_append (stg : Settings) (tts : TtsOracle) (t : ConvTable)
    (l1 l2 : List Op) :
    applyOps stg tts t (l1 ++ l2) = applyOps stg tts (applyOps stg tts t l1) l2 := by
  induction l1 generalizing t with
  | nil => rfl
  | cons op rest ih =>
    rw [List.cons_append]
    show applyOps stg tts (applyOp stg tts t op) (rest ++ l2) = _
    rw [ih]
    rfl

/-! ### Support lemmas for the summary and for iterated answers -/

theorem joinSep_mem_split (sep a : String) (l : List String) (h : a ∈ l) :
    ∃ pre post, joinSep sep l = pre ++ a ++ post := by
  induction l with
  | nil => cases h
  | cons x rest ih =>
    cases rest with
    | nil =>
      rcases List.mem_singleton.mp h with rfl
      refine ⟨"", "", ?_⟩
      show a = "" ++ a ++ ""
      rw [String.empty_append, String.append_empty]
    | cons y rest2 =>
      rcases List.mem_cons.mp h with rfl | h2
      · refine ⟨"", sep ++ joinSep sep (y :: rest2), ?_⟩
        show a ++ sep ++ joinSep sep (y :: rest2) = "" ++ a ++ (sep ++ joinSep sep (y :: rest2))
        rw [String.empty_append, String.append_assoc]
      · obtain ⟨pre, post, hsplit⟩ := ih h2
        refine ⟨x ++ sep ++ pre, post, ?_⟩
        show x ++ sep ++ joinSep sep (y :: rest2) = x ++ sep ++ pre ++ a ++ post
        rw [hsplit, ← String.append_assoc, ← String.append_assoc]

theorem recordMany_step (c : String) (pairs : List (String × String)) (now : Nat)
    (t : ConvTable) (s : Session) (h : dget t c = some s) (hinv : sessionInv1 s) :
    ∃ s2, dget (recordMany c pairs now t) c = some s2 ∧
      s2.current_question = s.current_question + pairs.length ∧ sessionInv1 s2 := by
  induction pairs generalizing t s with
  | nil => exact ⟨s, h, by simp, hinv⟩
  | cons kv rest ih =>
    have h1 : dget (save_response t c kv.1 kv.2 now) c =
        some (bumpSession s kv.1 kv.2 now) := by
      rw [dget_save_response, if_pos rfl, gcs_of_some t c now s h]
    have hb1 : sessionInv1 (bumpSession s kv.1 kv.2 now) := bump_inv1 s kv.1 kv.2 now hinv
    obtain ⟨s2, h2, hq2, hi2⟩ := ih (save_response t c kv.1 kv.2 now) _ h1 hb1
    refine ⟨s2, h2, ?_, hi2⟩
    rw [hq2]
    show (bumpSession s kv.1 kv.2 now).current_question + rest.length =
      s.current_question + (kv :: rest).length
    simp only [bumpSession, List.length_cons]
    omega

theorem freshSession_inv1 (now : Nat) : sessionInv1 (freshSession now) := rfl

theorem recordMany_none (c : String) (pairs : List (String × String)) (now : Nat)
    (t : ConvTable) (h : dget t c = none) (hne : pairs ≠ []) :
    ∃ s2, dget (recordMany c pairs now t) c = some s2 ∧
      s2.current_question = pairs.length ∧ sessionInv1 s2 := by
  cases pairs with
  | nil => exact absurd rfl hne
  | cons kv rest =>
    have h1 : dget (save_response t c kv.1 kv.2 now) c =
        some (bumpSession (freshSession now) kv.1 kv.2 now) := by
      rw [dget_save_response, if_pos rfl, gcs_of_none t c now h]
    have hb1 : sessionInv1 (bumpSession (freshSession now) kv.1 kv.2 now) :=
      bump_inv1 (freshSession now) kv.1 kv.2 now (freshSession_inv1 now)
    obtain ⟨s2, h2, hq2, hi2⟩ := recordMany_step c rest now _ _ h1 hb1
    refine ⟨s2, h2, ?_, hi2⟩
    rw [hq2]
    show (bumpSession (freshSession now) kv.1 kv.2 now).current_question + rest.length =
      (kv :: rest).length
    simp only [bumpSession, freshSession, List.length_cons]
    omega

theorem responses_keys_nodup (s : Session) (hinv : sessionInv s) :
    (s.responses.map Prod.fst).Nodup := by
  rw [hinv.2]
  have hnd : (QUESTIONS.map Question.key).Nodup := by decide
  have hmt : (QUESTIONS.take s.current_question).map Question.key =
      (QUESTIONS.map Question.key).take s.current_question :=
    List.map_take Question.key QUESTIONS s.current_question
  rw [hmt]
  exact hnd.sublist (List.take_sublist _ _)

theorem tableInv_nil : tableInv ([] : ConvTable) := by
  intro c s h
  simp [dget] at h

/-! ### Claim theorems -/

/-- C3: `get_or_create_session` (`get_conversation_state`) used on a never
seen call identifier yields a session with pending index 0, an empty answer
map and completion=false, and inserts that session into the process-wide
table; on an already present identifier it returns the stored session
unchanged and leaves the table unchanged; it is total, with no error
outcome. -/
theorem get_or_create_session_spec :
    (∀ (t : ConvTable) (c : String) (now : Nat),
      dget t c = none →
      (get_conversation_state t c now).2.current_question = 0 ∧
      (get_conversation_state t c now).2.responses = [] ∧
      (get_conversation_state t c now).2.completed = false ∧
      dget (get_conversation_state t c now).1 c =
        some (get_conversation_state t c now).2) ∧
    (∀ (t : ConvTable) (c : String) (now : Nat) (s : Session),
      dget t c = some s →
      get_conversation_state t c now = (t, s)) := by
  constructor
  · intro t c now h
    rw [gcs_of_none t c now h]
    exact ⟨rfl, rfl, rfl, dget_dset_self t c (freshSession now)⟩
  · intro t c now s h
    exact gcs_of_some t c now s h

/-- Witness for C3 at the empty table and at a one-entry table. -/
theorem get_or_create_session_spec_witness :
    ((get_conversation_state [] "CA1" 0).2.current_question = 0 ∧
     (get_conversation_state [] "CA1" 0).2.responses = [] ∧
     (get_conversation_state [] "CA1" 0).2.completed = false ∧
     dget (get_conversation_state [] "CA1" 0).1 "CA1" =
       some (get_conversation_state [] "CA1" 0).2) ∧
    get_conversation_state [("CA2", freshSession 3)] "CA2" 7 =
      ([("CA2", freshSession 3)], freshSession 3) :=
  ⟨get_or_create_session_spec.1 [] "CA1" 0 rfl,
   get_or_create_session_spec.2 [("CA2", freshSession 3)] "CA2" 7 (freshSession 3)
     (by decide)⟩

/-- C6: a webhook request whose query secret is not exactly the configured
shared secret (a missing secret arrives as `""`) is rejected with HTTP 403 on
all three webhook endpoints, with the session table untouched, no TwiML
rendered, and no synthesis call made. -/
theorem webhook_auth_spec :
    ∀ (stg : Settings) (tts : TtsOracle) (secret : String) (t : ConvTable)
      (now : Nat) (fI : IncomingForm) (fG : GatherForm),
      secret ≠ stg.twilio_voice_webhook_secret →
      voice_incoming stg tts secret fI t now =
        { status := 403, verbs := [], table := t, synthCalls := [] } ∧
      voice_handle_gather stg tts secret fG t now =
        { status := 403, verbs := [], table := t, synthCalls := [] } ∧
      voice_fallback stg secret t =
        { status := 403, verbs := [], table := t, synthCalls := [] } :=
  fun stg tts secret t now fI fG h =>
    ⟨incoming_403 stg tts secret fI t now h,
     gather_403 stg tts secret fG t now h,
     fallback_403 stg secret t h⟩

/-- Witness for C6: a wrong secret (and the empty secret of a missing query
parameter) against the dev configuration. -/
theorem webhook_auth_spec_witness :
    voice_incoming ⟨none, none, "dev", none, none, "http://localhost:8000", 3⟩
        (fun _ => none) "" ⟨some "CA1"⟩ [] 0 =
      { status := 403, verbs := [], table := [], synthCalls := [] } ∧
    voice_handle_gather ⟨none, none, "dev", none, none, "http://localhost:8000", 3⟩
        (fun _ => none) "" ⟨some "Alex", none, some "CA1"⟩ [] 0 =
      { status := 403, verbs := [], table := [], synthCalls := [] } ∧
    voice_fallback ⟨none, none, "dev", none, none, "http://localhost:8000", 3⟩ "" [] =
      { status := 403, verbs := [], table := [], synthCalls := [] } :=
  webhook_auth_spec ⟨none, none, "dev", none, none, "http://localhost:8000", 3⟩
    (fun _ => none) "" [] 0 ⟨some "CA1"⟩ ⟨some "Alex", none, some "CA1"⟩ (by decide)

/-- C7: `synthesize_tts` returns the unavailable value (`None`) without
attempting an outbound call when the text is empty or the credential is
absent, empty, or the known placeholder; a failing HTTP call is caught and
also yields `None`; on success it writes the audio bytes under the freshly
generated `tts_<uuid>.mp3` name in the media directory and returns that
path. -/
theorem synthesize_tts_spec :
    ∀ (text : String) (env : TtsEnv),
      (text = "" →
        synthesize_tts text env =
          { result := none, attempted := false, writes := [] }) ∧
      ((env.elevenlabs_api_key = none ∨ env.elevenlabs_api_key = some "" ∨
          env.elevenlabs_api_key = some "your_elevenlabs_api_key_here") →
        synthesize_tts text env =
          { result := none, attempted := false, writes := [] }) ∧
      (env.http = HttpOutcome.failure →
        (synthesize_tts text env).result = none) ∧
      (∀ k content, text ≠ "" → env.elevenlabs_api_key = some k → k ≠ "" →
        k ≠ "your_elevenlabs_api_key_here" →
        env.http = HttpOutcome.success content →
        synthesize_tts text env =
          { result := some ("tts_" ++ env.uuid_hex ++ ".mp3"), attempted := true,
            writes := [("tts_" ++ env.uuid_hex ++ ".mp3", content)] }) := by
  intro text env
  refine ⟨?_, ?_, ?_, ?_⟩
  · intro h
    simp [synthesize_tts, h]
  · intro h
    by_cases ht : text = ""
    · simp [synthesize_tts, ht]
    · rcases h with h | h | h <;> simp [synthesize_tts, ht, h]
  · intro hf
    by_cases ht : text = ""
    · simp [synthesize_tts, ht]
    · cases hk : env.elevenlabs_api_key with
      | none => simp [synthesize_tts, ht, hk]
      | some k =>
        by_cases hkb : k = "" ∨ k = "your_elevenlabs_api_key_here"
        · simp [synthesize_tts, ht, hk, hkb]
        · simp [synthesize_tts, ht, hk, hkb, hf]
  · intro k content ht hk hk1 hk2 hsucc
    have hkb : ¬ (k = "" ∨ k = "your_elevenlabs_api_key_here") := by
      simp [hk1, hk2]
    simp [synthesize_tts, ht, hk, hkb, hsucc]

/-- Witness for C7 at each of the four behaviours. -/
theorem synthesize_tts_spec_witness :
    (synthesize_tts "" ⟨some "k", "abc", HttpOutcome.success [1]⟩ =
      { result := none, attempted := false, writes := [] }) ∧
    (synthesize_tts "hi" ⟨none, "abc", HttpOutcome.success [1]⟩ =
      { result := none, attempted := false, writes := [] }) ∧
    ((synthesize_tts "hi" ⟨some "k", "abc", HttpOutcome.failure⟩).result = none) ∧
    (synthesize_tts "hi" ⟨some "k", "abc", HttpOutcome.success [1, 2]⟩ =
      { result := some "tts_abc.mp3", attempted := true,
        writes := [("tts_abc.mp3", [1, 2])] }) := by
  refine ⟨(synthesize_tts_spec "" ⟨some "k", "abc", HttpOutcome.success [1]⟩).1 rfl,
    (synthesize_tts_spec "hi" ⟨none, "abc", HttpOutcome.success [1]⟩).2.1 (Or.inl rfl),
    (synthesize_tts_spec "hi" ⟨some "k", "abc", HttpOutcome.failure⟩).2.2.1 rfl,
    ?_⟩
  have h := (synthesize_tts_spec "hi" ⟨some "k", "abc", HttpOutcome.success [1, 2]⟩).2.2.2
    "k" [1, 2] (by decide) rfl (by decide) (by decide) rfl
  exact h

/-- C9: the `max_turns` setting is dead configuration: changing only it
changes neither any webhook handler's response (status, TwiML verbs,
resulting table, synthesis calls) nor the session table produced by any
sequence of public operations. -/
theorem max_turns_dead :
    ∀ (stg : Settings) (m : Int) (tts : TtsOracle) (secret : String)
      (t : ConvTable) (now : Nat) (fI : IncomingForm) (fG : GatherForm)
      (ops : List Op),
      voice_incoming { stg with max_turns := m } tts secret fI t now =
        voice_incoming stg tts secret fI t now ∧
      voice_handle_gather { stg with max_turns := m } tts secret fG t now =
        voice_handle_gather stg tts secret fG t now ∧
      voice_fallback { stg with max_turns := m } secret t =
        voice_fallback stg secret t ∧
      applyOps { stg with max_turns := m } tts t ops = applyOps stg tts t ops := by
  intro stg m tts secret t now fI fG ops
  refine ⟨?_, ?_, ?_, ?_⟩
  · cases stg
    rfl
  · cases stg
    rfl
  · cases stg
    rfl
  · induction ops generalizing t with
    | nil => rfl
    | cons op rest ih =>
      show applyOps { stg with max_turns := m } tts
          (applyOp { stg with max_turns := m } tts t op) rest = _
      have hop : applyOp { stg with max_turns := m } tts t op = applyOp stg tts t op := by
        cases stg
        cases op <;> rfl
      rw [hop]
      exact ih (applyOp stg tts t op)

theorem recordMany_append (c : String) (pairs pairs2 : List (String × String))
    (now : Nat) (t : ConvTable) :
    recordMany c (pairs ++ pairs2) now t =
      recordMany c pairs2 now (recordMany c pairs now t) := by
  simp [recordMany, List.foldl_append]

/-- C1: on an existing session, `record_answer` (`save_response`) stores the
text under the question key, advances the pending index by exactly one, sets
the completion flag when the new index reaches the question count (keeping
the old flag otherwise), and stamps the update time; and after answering the
question keys in order from a fresh session, completion is true and stays
true under any further sequence of public operations. -/
theorem record_answer_spec :
    (∀ (t : ConvTable) (c : String) (s : Session) (k txt : String) (now : Nat),
      dget t c = some s →
      ∃ s2, dget (save_response t c k txt now) c = some s2 ∧
        s2.responses = dset s.responses k txt ∧
        dget s2.responses k = some txt ∧
        s2.current_question = s.current_question + 1 ∧
        (QUESTIONS.length ≤ s.current_question + 1 → s2.completed = true) ∧
        (s.current_question + 1 < QUESTIONS.length → s2.completed = s.completed) ∧
        s2.updated_at = some now) ∧
    (∀ (t : ConvTable) (c : String) (texts : List String) (now : Nat),
      dget t c = none → texts.length = QUESTIONS.length →
      ∀ (stg : Settings) (tts : TtsOracle) (ops : List Op),
        ∃ s2, dget (applyOps stg tts
            (recordMany c ((QUESTIONS.map Question.key).zip texts) now t) ops) c =
              some s2 ∧
          s2.completed = true) := by
  constructor
  · intro t c s k txt now h
    refine ⟨bumpSession s k txt now, ?_, rfl, dget_dset_self s.responses k txt, rfl,
      ?_, ?_, rfl⟩
    · rw [dget_save_response, if_pos rfl, gcs_of_some t c now s h]
    · intro hge
      simp [bumpSession, hge]
    · intro hlt
      have hnle : ¬ QUESTIONS.length ≤ s.current_question + 1 := by omega
      simp [bumpSession, hnle]
  · intro t c texts now h hlen stg tts ops
    have hzlen : ((QUESTIONS.map Question.key).zip texts).length = QUESTIONS.length := by
      rw [List.length_zip, List.length_map, hlen]
      omega
    have hzne : (QUESTIONS.map Question.key).zip texts ≠ [] := by
      intro hz
      rw [hz] at hzlen
      simp [QUESTIONS] at hzlen
    obtain ⟨s5, h5, hq5, hi5⟩ := recordMany_none c _ now t h hzne
    have hcomp : s5.completed = true := by
      rw [hi5, hq5, hzlen]
      simp
    obtain ⟨s6, h6, m6⟩ := applyOps_mono stg tts ops _ c s5 h5
    exact ⟨s6, h6, m6.2 hcomp⟩

/-- Witness for C1: one `save_response` on an existing one-question session,
and the five answers in order from a fresh session followed by one further
webhook operation. -/
theorem record_answer_spec_witness :
    (∃ s2, dget (save_response [("CA1", ⟨1, [("name", "Alex")], false, 0, some 0⟩)]
        "CA1" "date_of_birth" "1990" 4) "CA1" = some s2 ∧
      s2.responses = dset [("name", "Alex")] "date_of_birth" "1990" ∧
      dget s2.responses "date_of_birth" = some "1990" ∧
      s2.current_question = (1 : Nat) + 1 ∧
      (QUESTIONS.length ≤ 1 + 1 → s2.completed = true) ∧
      (1 + 1 < QUESTIONS.length → s2.completed = false) ∧
      s2.updated_at = some 4) ∧
    (∃ s2, dget (applyOps ⟨none, none, "dev", none, none, "http://localhost:8000", 3⟩
        (fun _ => none)
        (recordMany "CA3" ((QUESTIONS.map Question.key).zip
          ["Alex", "1990", "555", "a@b.c", "checkup"]) 0 [])
        [Op.gatherEv "dev" ⟨some "again", none, some "CA3"⟩ 9]) "CA3" = some s2 ∧
      s2.completed = true) := by
  constructor
  · exact record_answer_spec.1 [("CA1", ⟨1, [("name", "Alex")], false, 0, some 0⟩)]
      "CA1" ⟨1, [("name", "Alex")], false, 0, some 0⟩ "date_of_birth" "1990" 4 (by decide)
  · exact record_answer_spec.2 [] "CA3" ["Alex", "1990", "555", "a@b.c", "checkup"] 0
      rfl (by decide) ⟨none, none, "dev", none, none, "http://localhost:8000", 3⟩
      (fun _ => none) [Op.gatherEv "dev" ⟨some "again", none, some "CA3"⟩ 9]

/-- C10: along any sequence of direct `record_answer` calls from a freshly
created session, the completion flag is true exactly when the pending index
has reached the question count, and once true it never resets. -/
theorem completion_iff_index_spec :
    ∀ (t : ConvTable) (c : String) (now : Nat)
      (pairs pairs2 : List (String × String)),
      dget t c = none →
      ∃ s, dget (recordMany c pairs now (get_conversation_state t c now).1) c =
          some s ∧
        (s.completed = true ↔ QUESTIONS.length ≤ s.current_question) ∧
        ∀ s2, dget (recordMany c (pairs ++ pairs2) now
            (get_conversation_state t c now).1) c = some s2 →
          (s.completed = true → s2.completed = true) := by
  intro t c now pairs pairs2 h
  have hfr : dget (get_conversation_state t c now).1 c = some (freshSession now) := by
    rw [gcs_of_none t c now h]
    exact dget_dset_self t c (freshSession now)
  obtain ⟨s, hs, hq, hi⟩ := recordMany_step c pairs now _ _ hfr (freshSession_inv1 now)
  refine ⟨s, hs, ?_, ?_⟩
  · rw [hi]
    exact decide_eq_true_iff
  · intro s2 hs2 hc
    rw [recordMany_append] at hs2
    obtain ⟨s2x, hs2x, hq2, hi2⟩ := recordMany_step c pairs2 now _ _ hs hi
    rw [hs2x] at hs2
    injection hs2 with he
    subst he
    have hle : QUESTIONS.length ≤ s.current_question := by
      rw [hi] at hc
      exact of_decide_eq_true hc
    rw [hi2, hq2]
    simp only [decide_eq_true_eq]
    omega

/-- Witness for C10: three answers then two more from a fresh session. -/
theorem completion_iff_index_spec_witness :
    ∃ s, dget (recordMany "CA1" [("name", "a"), ("date_of_birth", "b"), ("phone", "c")]
        5 (get_conversation_state [] "CA1" 5).1) "CA1" = some s ∧
      (s.completed = true ↔ QUESTIONS.length ≤ s.current_question) ∧
      ∀ s2, dget (recordMany "CA1"
          ([("name", "a"), ("date_of_birth", "b"), ("phone", "c")] ++
            [("email", "d"), ("reason", "e")]) 5
          (get_conversation_state [] "CA1" 5).1) "CA1" = some s2 →
        (s.completed = true → s2.completed = true) :=
  completion_iff_index_spec [] "CA1" 5
    [("name", "a"), ("date_of_birth", "b"), ("phone", "c")]
    [("email", "d"), ("reason", "e")] rfl

/-- C8 counterexample: with the full-transcription field present but empty
(`SpeechResult = ""`) and the partial field `TranscriptionText = "hello"`,
`voice_handle_gather` uses `"hello"`, not the present `SpeechResult` value,
so the field is not preferred merely by presence. -/
theorem utterance_preference_counterexample :
    extract_utterance ⟨some "", some "hello", some "CA1"⟩ = "hello" ∧
    claimedUtterance ⟨some "", some "hello", some "CA1"⟩ = "" ∧
    extract_utterance ⟨some "", some "hello", some "CA1"⟩ ≠
      claimedUtterance ⟨some "", some "hello", some "CA1"⟩ := by
  refine ⟨rfl, rfl, ?_⟩
  decide

/-- C8 amended: the utterance is the `SpeechResult` field when present and
non-empty, else the `TranscriptionText` field when present and non-empty,
else the empty string (Python `or` falls through on empty strings). -/
theorem utterance_preference_amended :
    ∀ f : GatherForm, extract_utterance f = preferredUtterance f := by
  intro f
  obtain ⟨sr, tt, cs⟩ := f
  cases sr with
  | none =>
    cases tt with
    | none => rfl
    | some t =>
      by_cases ht : t = "" <;>
        simp [extract_utterance, preferredUtterance, pyStrOr, ht]
  | some s =>
    by_cases hs : s = ""
    · cases tt with
      | none => simp [extract_utterance, preferredUtterance, pyStrOr, hs]
      | some t =>
        by_cases ht : t = "" <;>
          simp [extract_utterance, preferredUtterance, pyStrOr, hs, ht]
    · simp [extract_utterance, preferredUtterance, pyStrOr, hs]

/-- C2: over any sequence of public operations in which answers are recorded
only through the webhook handlers, starting from the empty process-wide
table: a session's pending index never decreases, its completion flag never
resets, completion holds whenever the index has reached the question count,
every recorded answer keeps its value forever, and no question key occurs
twice in the answer map. -/
theorem session_invariants_spec :
    ∀ (stg : Settings) (tts : TtsOracle) (ops1 ops2 : List Op),
      (∀ op ∈ ops1 ++ ops2, op.viaHandlers = true) →
      ∀ (c : String) (s s2 : Session),
        dget (applyOps stg tts [] ops1) c = some s →
        dget (applyOps stg tts [] (ops1 ++ ops2)) c = some s2 →
        s.current_question ≤ s2.current_question ∧
        (s.completed = true → s2.completed = true) ∧
        (QUESTIONS.length ≤ s.current_question → s.completed = true) ∧
        (∀ k v, dget s.responses k = some v → dget s2.responses k = some v) ∧
        (s.responses.map Prod.fst).Nodup := by
  intro stg tts ops1 ops2 hweb c s s2 h1 h2
  have hw1 : ∀ op ∈ ops1, op.viaHandlers = true :=
    fun op ho => hweb op (List.mem_append_left _ ho)
  have hw2 : ∀ op ∈ ops2, op.viaHandlers = true :=
    fun op ho => hweb op (List.mem_append_right _ ho)
  obtain ⟨hi1, _⟩ := applyOps_strong stg tts ops1 hw1 [] tableInv_nil
  have hsinv : sessionInv s := hi1 c s h1
  rw [applyOps_append] at h2
  obtain ⟨_, hm2⟩ := applyOps_strong stg tts ops2 hw2 _ hi1
  obtain ⟨s2x, h2x, m2⟩ := hm2 c s h1
  rw [h2x] at h2
  injection h2 with he
  subst he
  refine ⟨m2.1.1, m2.1.2, ?_, m2.2, responses_keys_nodup s hsinv⟩
  intro hle
  rw [hsinv.1]
  simp [hle]

/-- Witness for C2: one authenticated speech-captured webhook, then another
on the same call, starting from the empty table. -/
theorem session_invariants_spec_witness :
    (1 : Nat) ≤ (⟨2, [("name", "Alex"), ("date_of_birth", "1990")], false, 0, some 1⟩ :
        Session).current_question ∧
    ((false : Bool) = true →
      (⟨2, [("name", "Alex"), ("date_of_birth", "1990")], false, 0, some 1⟩ :
        Session).completed = true) ∧
    (QUESTIONS.length ≤ 1 → (false : Bool) = true) ∧
    (∀ k v, dget [("name", "Alex")] k = some v →
      dget [("name", "Alex"), ("date_of_birth", "1990")] k = some v) ∧
    (([("name", "Alex")] : List (String × String)).map Prod.fst).Nodup := by
  have h := session_invariants_spec
    ⟨none, none, "dev", none, none, "http://localhost:8000", 3⟩
    (fun _ => none)
    [Op.gatherEv "dev" ⟨some "Alex", none, some "CA1"⟩ 0]
    [Op.gatherEv "dev" ⟨some "1990", none, some "CA1"⟩ 1]
    (by decide) "CA1"
    ⟨1, [("name", "Alex")], false, 0, some 0⟩
    ⟨2, [("name", "Alex"), ("date_of_birth", "1990")], false, 0, some 1⟩
    (by decide) (by decide)
  exact h

/-- C4: on a completed session, `next_step` (`get_next_question`) leaves the
table unchanged and returns a terminal summary containing, for every question
in definition order, the readable key followed by the recorded answer, or the
placeholder "N/A" when no answer exists; on an uncompleted session whose
pending index exceeds the question count, it returns the generic closing line
with terminal=true. -/
theorem next_step_summary_spec :
    (∀ (t : ConvTable) (c : String) (now : Nat) (s : Session),
      dget t c = some s → s.completed = true →
      (get_next_question t c now).1 = t ∧
      (get_next_question t c now).2.2 = true ∧
      (get_next_question t c now).2.1 =
        "Perfect! I have all your information: " ++
          joinSep ", " (QUESTIONS.map (fun question =>
            pyTitle (strReplace question.key "_" " ") ++ ": " ++
              (dget s.responses question.key).getD "N/A")) ++ ". Thank you!" ∧
      ∀ q ∈ QUESTIONS, ∃ pre post,
        (get_next_question t c now).2.1 =
          pre ++ (pyTitle (strReplace q.key "_" " ") ++ ": " ++
            (dget s.responses q.key).getD "N/A") ++ post) ∧
    (∀ (t : ConvTable) (c : String) (now : Nat) (s : Session),
      dget t c = some s → s.completed = false →
      QUESTIONS.length < s.current_question →
      get_next_question t c now = (t, "Thank you for calling!", true)) := by
  constructor
  · intro t c now s h hc
    have e1 : get_conversation_state t c now = (t, s) := gcs_of_some t c now s h
    have hfst : (get_next_question t c now).1 = t := by
      rw [get_next_question_fst, e1]
    have hsnd : (get_next_question t c now).2 = get_next_question_pure s := by
      rw [get_next_question_snd, e1]
    have hpure : get_next_question_pure s =
        ("Perfect! I have all your information: " ++
          joinSep ", " (QUESTIONS.map (fun question =>
            pyTitle (strReplace question.key "_" " ") ++ ": " ++
              (dget s.responses question.key).getD "N/A")) ++ ". Thank you!", true) := by
      simp [get_next_question_pure, hc]
    refine ⟨hfst, by rw [hsnd, hpure], by rw [hsnd, hpure], ?_⟩
    intro q hq
    have hmem : (pyTitle (strReplace q.key "_" " ") ++ ": " ++
        (dget s.responses q.key).getD "N/A") ∈
        QUESTIONS.map (fun question =>
          pyTitle (strReplace question.key "_" " ") ++ ": " ++
            (dget s.responses question.key).getD "N/A") :=
      List.mem_map_of_mem _ hq
    obtain ⟨pre, post, hsplit⟩ := joinSep_mem_split ", " _ _ hmem
    refine ⟨"Perfect! I have all your information: " ++ pre,
      post ++ ". Thank you!", ?_⟩
    rw [hsnd, hpure]
    show "Perfect! I have all your information: " ++
        joinSep ", " (QUESTIONS.map (fun question =>
          pyTitle (strReplace question.key "_" " ") ++ ": " ++
            (dget s.responses question.key).getD "N/A")) ++ ". Thank you!" = _
    rw [hsplit]
    simp [String.append_assoc]
  · intro t c now s h hc hgt
    have e1 : get_conversation_state t c now = (t, s) := gcs_of_some t c now s h
    have hnlt : ¬ s.current_question < QUESTIONS.length := by omega
    have hpure : get_next_question_pure s = ("Thank you for calling!", true) := by
      simp [get_next_question_pure, hc, hnlt]
    simp [get_next_question, e1, hpure]

/-- Witness for C4: a completed session with only the name recorded, and an
uncompleted session with index 6. -/
theorem next_step_summary_spec_witness :
    ((get_next_question [("CA1", ⟨5, [("name", "Alex")], true, 0, some 0⟩)] "CA1" 1).1 =
      [("CA1", ⟨5, [("name", "Alex")], true, 0, some 0⟩)] ∧
     (get_next_question [("CA1", ⟨5, [("name", "Alex")], true, 0, some 0⟩)] "CA1" 1).2.2 =
      true ∧
     (get_next_question [("CA1", ⟨5, [("name", "Alex")], true, 0, some 0⟩)] "CA1" 1).2.1 =
       "Perfect! I have all your information: " ++
         joinSep ", " (QUESTIONS.map (fun question =>
           pyTitle (strReplace question.key "_" " ") ++ ": " ++
             (dget [("name", "Alex")] question.key).getD "N/A")) ++ ". Thank you!" ∧
     ∀ q ∈ QUESTIONS, ∃ pre post,
       (get_next_question [("CA1", ⟨5, [("name", "Alex")], true, 0, some 0⟩)]
           "CA1" 1).2.1 =
         pre ++ (pyTitle (strReplace q.key "_" " ") ++ ": " ++
           (dget [("name", "Alex")] q.key).getD "N/A") ++ post) ∧
    get_next_question [("CA2", ⟨6, [], false, 0, none⟩)] "CA2" 2 =
      ([("CA2", ⟨6, [], false, 0, none⟩)], "Thank you for calling!", true) :=
  ⟨next_step_summary_spec.1 [("CA1", ⟨5, [("name", "Alex")], true, 0, some 0⟩)]
      "CA1" 1 ⟨5, [("name", "Alex")], true, 0, some 0⟩ (by decide) rfl,
   next_step_summary_spec.2 [("CA2", ⟨6, [], false, 0, none⟩)] "CA2" 2
      ⟨6, [], false, 0, none⟩ (by decide) rfl (by decide)⟩

/-- C5: on a session positioned at the second question, `next_step` renders
the second prompt with `{name}` replaced by the recorded name answer
"Alex"; when no name answer exists, the literal placeholder is left in the
prompt unsubstituted. -/
theorem prompt_interpolation_spec :
    (∀ (t : ConvTable) (c : String) (now : Nat) (s : Session),
      dget t c = some s → s.completed = false → s.current_question = 1 →
      dget s.responses "name" = some "Alex" →
      get_next_question t c now =
        (t, "Thank you Alex! What's your date of birth?", false)) ∧
    (∀ (t : ConvTable) (c : String) (now : Nat) (s : Session),
      dget t c = some s → s.completed = false → s.current_question = 1 →
      dget s.responses "name" = none →
      get_next_question t c now =
        (t, "Thank you {name}! What's your date of birth?", false)) := by
  constructor
  · intro t c now s h hc hidx hname
    have e1 : get_conversation_state t c now = (t, s) := gcs_of_some t c now s h
    obtain ⟨idx, resp, comp, ca, ua⟩ := s
    simp only at hc hidx
    subst hc
    subst hidx
    have hpure : get_next_question_pure ⟨1, resp, false, ca, ua⟩ =
        ("Thank you Alex! What's your date of birth?", false) := by
      simp only [get_next_question_pure, QUESTIONS] at hname ⊢
      rw [hname]
      simp only [Bool.false_eq_true, if_false]
      rfl
    simp [get_next_question, e1, hpure]
  · intro t c now s h hc hidx hname
    have e1 : get_conversation_state t c now = (t, s) := gcs_of_some t c now s h
    obtain ⟨idx, resp, comp, ca, ua⟩ := s
    simp only at hc hidx
    subst hc
    subst hidx
    have hpure : get_next_question_pure ⟨1, resp, false, ca, ua⟩ =
        ("Thank you {name}! What's your date of birth?", false) := by
      simp only [get_next_question_pure, QUESTIONS] at hname ⊢
      rw [hname]
      simp only [Bool.false_eq_true, if_false]
      rfl
    simp [get_next_question, e1, hpure]

/-- Witness for C5: a session at index 1 with name "Alex", and one with no
recorded name. -/
theorem prompt_interpolation_spec_witness :
    get_next_question [("CA1", ⟨1, [("name", "Alex")], false, 0, some 0⟩)] "CA1" 1 =
      ([("CA1", ⟨1, [("name", "Alex")], false, 0, some 0⟩)],
        "Thank you Alex! What's your date of birth?", false) ∧
    get_next_question [("CA2", ⟨1, [], false, 0, none⟩)] "CA2" 1 =
      ([("CA2", ⟨1, [], false, 0, none⟩)],
        "Thank you {name}! What's your date of birth?", false) :=
  ⟨prompt_interpolation_spec.1 [("CA1", ⟨1, [("name", "Alex")], false, 0, some 0⟩)]
      "CA1" 1 ⟨1, [("name", "Alex")], false, 0, some 0⟩ (by decide) rfl rfl (by decide),
   prompt_interpolation_spec.2 [("CA2", ⟨1, [], false, 0, none⟩)] "CA2" 1
      ⟨1, [], false, 0, none⟩ (by decide) rfl rfl (by decide)⟩

end PhoneAgent
